import Mathlib

/-!
Verification of the query filter builder and size-bounded query splitter of
spicedb (internal/datastore/common/sql.go), shallowly embedded in Lean.

Go strings are modelled as Lean strings (identifier strings in this code are
ASCII, so Go byte length coincides with character length); Go slices of
usersets as lists; the squirrel SelectBuilder as an abstract list of WHERE
predicates plus an optional LIMIT; uint64 arithmetic as Nat with explicit
mod 2^64 where overflow can matter; the panic in FilterToUsersets as an
Option none; error returns as Except; and the database/transaction layer as
an oracle recording each stage's outcome per executed partition.
-/

set_option maxHeartbeats 1000000

/-- v0.ObjectAndRelation: a userset reference (namespace, object id, relation). -/
structure ObjectAndRelation where
  Namespace : String
  ObjectId : String
  Relation : String
deriving DecidableEq

/-- v0.RelationTuple: the resource (object and relation) and the subject userset. -/
structure RelationTuple where
  objectAndRelation : ObjectAndRelation
  userset : ObjectAndRelation
deriving DecidableEq

/-- A rendered squirrel predicate: sq.Eq (a conjunction of column = value
equalities) or sq.Or (a disjunction of predicates). -/
inductive Sqlizer where
  | eqConj : List (String × String) → Sqlizer
  | orDisj : List Sqlizer → Sqlizer

/-- The squirrel SelectBuilder, abstracted to the parts the claims depend on:
the ordered list of WHERE predicates and the optional LIMIT. -/
structure SelectBuilder where
  whereParts : List Sqlizer
  limit : Option Nat

/-- sq.SelectBuilder.Where: appends one predicate. -/
def SelectBuilder.Where (b : SelectBuilder) (p : Sqlizer) : SelectBuilder :=
  { b with whereParts := b.whereParts ++ [p] }

/-- sq.SelectBuilder.Limit: sets the row-count ceiling. -/
def SelectBuilder.Limit (b : SelectBuilder) (n : Nat) : SelectBuilder :=
  { b with limit := some n }

/-- An OpenTelemetry attribute key/value pair. -/
structure KeyValue where
  key : String
  value : String

def objNamespaceNameKey : String := "authzed.com/spicedb/sql/objNamespaceName"

def objRelationNameKey : String := "authzed.com/spicedb/sql/objRelationName"

def objIDKey : String := "authzed.com/spicedb/sql/objId"

def subNamespaceNameKey : String := "authzed.com/spicedb/sql/subNamespaceName"

def subRelationNameKey : String := "authzed.com/spicedb/sql/subRelationName"

def subObjectIDKey : String := "authzed.com/spicedb/sql/subObjectId"

def limitKey : String := "authzed.com/spicedb/sql/limit"

/-- SchemaInformation: the column identifiers of the tuple table. -/
structure SchemaInformation where
  TableTuple : String
  ColNamespace : String
  ColObjectID : String
  ColRelation : String
  ColUsersetNamespace : String
  ColUsersetObjectID : String
  ColUsersetRelation : String

/-- SchemaQueryFilterer: schema, statement under construction, running
estimated size, and tracing attributes. -/
structure SchemaQueryFilterer where
  schema : SchemaInformation
  queryBuilder : SelectBuilder
  currentEstimatedSize : Nat
  tracerAttributes : List KeyValue

/-- NewSchemaQueryFilterer: zero estimated size, no attributes. -/
def NewSchemaQueryFilterer (schema : SchemaInformation) (initialQuery : SelectBuilder) : SchemaQueryFilterer :=
  { schema := schema, queryBuilder := initialQuery, currentEstimatedSize := 0, tracerAttributes := [] }

/-- FilterToResourceType (sql.go lines 91-96). -/
def SchemaQueryFilterer.FilterToResourceType (sqf : SchemaQueryFilterer) (resourceType : String) : SchemaQueryFilterer :=
  { sqf with
    queryBuilder := sqf.queryBuilder.Where (Sqlizer.eqConj [(sqf.schema.ColNamespace, resourceType)])
    tracerAttributes := sqf.tracerAttributes ++ [⟨objNamespaceNameKey, resourceType⟩]
    currentEstimatedSize := sqf.currentEstimatedSize + resourceType.length }

/-- FilterToResourceID (sql.go lines 100-105). -/
def SchemaQueryFilterer.FilterToResourceID (sqf : SchemaQueryFilterer) (objectID : String) : SchemaQueryFilterer :=
  { sqf with
    queryBuilder := sqf.queryBuilder.Where (Sqlizer.eqConj [(sqf.schema.ColObjectID, objectID)])
    tracerAttributes := sqf.tracerAttributes ++ [⟨objIDKey, objectID⟩]
    currentEstimatedSize := sqf.currentEstimatedSize + objectID.length }

/-- FilterToRelation (sql.go lines 109-114). -/
def SchemaQueryFilterer.FilterToRelation (sqf : SchemaQueryFilterer) (relation : String) : SchemaQueryFilterer :=
  { sqf with
    queryBuilder := sqf.queryBuilder.Where (Sqlizer.eqConj [(sqf.schema.ColRelation, relation)])
    tracerAttributes := sqf.tracerAttributes ++ [⟨objRelationNameKey, relation⟩]
    currentEstimatedSize := sqf.currentEstimatedSize + relation.length }

/-- v1.SubjectFilter.RelationFilter. -/
structure SubjectRelationFilter where
  Relation : String
deriving DecidableEq

/-- v1.SubjectFilter. -/
structure SubjectFilter where
  SubjectType : String
  OptionalSubjectId : String
  OptionalRelation : Option SubjectRelationFilter
deriving DecidableEq

/-- stringz.DefaultEmpty: the fallback when the string is empty. -/
def defaultEmpty (s fallback : String) : String :=
  if s = "" then fallback else s

/-- Modelled from the spec: the datastore.Ellipsis sentinel "self" relation
(the datastore package is not part of the visible sources; section 3 of the
spec names the sentinel and section 4.1 fixes its use as the default). -/
def Ellipsis : String := "..."

/-- FilterToSubjectFilter (sql.go lines 118-138): equality on subject type;
equality on subject id when non-empty; when the optional relation is present,
equality on the subject relation, defaulted to Ellipsis when empty. -/
def SchemaQueryFilterer.FilterToSubjectFilter (sqf : SchemaQueryFilterer) (filter : SubjectFilter) : SchemaQueryFilterer :=
  let s1 : SchemaQueryFilterer :=
    { sqf with
      queryBuilder := sqf.queryBuilder.Where (Sqlizer.eqConj [(sqf.schema.ColUsersetNamespace, filter.SubjectType)])
      tracerAttributes := sqf.tracerAttributes ++ [⟨subNamespaceNameKey, filter.SubjectType⟩] }
  let s2 : SchemaQueryFilterer :=
    if filter.OptionalSubjectId = "" then s1
    else
      { s1 with
        queryBuilder := s1.queryBuilder.Where (Sqlizer.eqConj [(s1.schema.ColUsersetObjectID, filter.OptionalSubjectId)])
        tracerAttributes := s1.tracerAttributes ++ [⟨subObjectIDKey, filter.OptionalSubjectId⟩] }
  let s3 : SchemaQueryFilterer :=
    { s2 with currentEstimatedSize := s2.currentEstimatedSize + filter.SubjectType.length + filter.OptionalSubjectId.length }
  match filter.OptionalRelation with
  | none => s3
  | some rel =>
    { s3 with
      queryBuilder := s3.queryBuilder.Where (Sqlizer.eqConj [(s3.schema.ColUsersetRelation, defaultEmpty rel.Relation Ellipsis)])
      tracerAttributes := s3.tracerAttributes ++ [⟨subRelationNameKey, defaultEmpty rel.Relation Ellipsis⟩]
      currentEstimatedSize := s3.currentEstimatedSize + (defaultEmpty rel.Relation Ellipsis).length }

/-- estimatedUsersetSize in SplitAndExecute (sql.go line 200): the sum of the
lengths of the namespace, object id and relation strings. -/
def usersetSize (u : ObjectAndRelation) : Nat :=
  u.Namespace.length + u.ObjectId.length + u.Relation.length

/-- The sum of the members' estimated sizes of one partition. -/
def partMembersSize (p : List ObjectAndRelation) : Nat :=
  (p.map usersetSize).sum

/-- The sq.Eq clause built for one userset in FilterToUsersets (sql.go
lines 149-153). -/
def usersetEqClause (schema : SchemaInformation) (u : ObjectAndRelation) : Sqlizer :=
  Sqlizer.eqConj
    [(schema.ColUsersetNamespace, u.Namespace),
     (schema.ColUsersetObjectID, u.ObjectId),
     (schema.ColUsersetRelation, u.Relation)]

/-- FilterToUsersets (sql.go lines 142-160). The Go function panics on an
empty usersets list; the panic is modelled as none. Otherwise the loop over
the usersets builds the disjunction and accumulates the estimated size, and
the resulting OR clause is appended to the statement. No tracing attribute is
added by this operation. -/
def SchemaQueryFilterer.FilterToUsersets (sqf : SchemaQueryFilterer) (usersets : List ObjectAndRelation) : Option SchemaQueryFilterer :=
  if usersets.isEmpty then none
  else
    let acc := usersets.foldl
      (fun (st : List Sqlizer × Nat) u =>
        (st.1 ++ [usersetEqClause sqf.schema u], st.2 + usersetSize u))
      ([], sqf.currentEstimatedSize)
    some
      { sqf with
        queryBuilder := sqf.queryBuilder.Where (Sqlizer.orDisj acc.1)
        currentEstimatedSize := acc.2 }

/-- SchemaQueryFilterer.Limit (sql.go lines 163-167). -/
def SchemaQueryFilterer.Limit (sqf : SchemaQueryFilterer) (limit : Nat) : SchemaQueryFilterer :=
  { sqf with
    queryBuilder := sqf.queryBuilder.Limit limit
    tracerAttributes := sqf.tracerAttributes ++ [⟨limitKey, toString limit⟩] }

/-- The split-index scan of SplitAndExecute (sql.go lines 194-208): index,
currentUsersetCount and currentEstimatedDataSize are threaded left to right;
a split index is recorded when currentUsersetCount > 0 and
estimatedUsersetSize + currentEstimatedDataSize >= the threshold, resetting
the running size to the base builder size before adding the userset size. -/
def splitScan (base threshold : Nat) : Nat → Nat → Nat → List ObjectAndRelation → List Nat
  | _, _, _, [] => []
  | index, count, cur, u :: rest =>
    if 0 < count ∧ threshold ≤ usersetSize u + cur then
      index :: splitScan base threshold (index + 1) (count + 1) (base + usersetSize u) rest
    else
      splitScan base threshold (index + 1) (count + 1) (cur + usersetSize u) rest

/-- The split indexes of SplitAndExecute: the scan seeded with index 0,
count 0 and the base builder's current estimated size. -/
def computeSplitIndexes (base threshold : Nat) (usersets : List ObjectAndRelation) : List Nat :=
  splitScan base threshold 0 0 base usersets

/-- The slicing loop of SplitAndExecute (sql.go lines 210-216): startIndex
begins at 0; for every splitIndex the slice usersets[startIndex:splitIndex]
is emitted and startIndex advances; finally usersets[startIndex:] is
emitted. -/
def slicesLoop (usersets : List ObjectAndRelation) (start : Nat) : List Nat → List (List ObjectAndRelation)
  | [] => [usersets.drop start]
  | i :: rest => (usersets.drop start).take (i - start) :: slicesLoop usersets i rest

/-- The userset partitions of SplitAndExecute: slice at the computed split
indexes. -/
def splitPartitions (base threshold : Nat) (usersets : List ObjectAndRelation) : List (List ObjectAndRelation) :=
  slicesLoop usersets 0 (computeSplitIndexes base threshold usersets)

/-- Modelled from the spec (section 4.2 step 2), for comparison with the
code's splitPartitions: scan once, keeping a running size seeded from the
base size and a current partition; when the current partition is non-empty
and the userset's size plus the running size reaches the threshold, close
the partition before this userset, reset the running size to the base size,
and start the new partition with this userset; otherwise accept it. -/
def specSplitGo (base threshold : Nat) (running : Nat) (cur : List ObjectAndRelation) : List ObjectAndRelation → List (List ObjectAndRelation)
  | [] => [cur]
  | u :: rest =>
    if cur ≠ [] ∧ threshold ≤ usersetSize u + running then
      cur :: specSplitGo base threshold (base + usersetSize u) [u] rest
    else
      specSplitGo base threshold (running + usersetSize u) (cur ++ [u]) rest

/-- Modelled from the spec: the partitioning described in section 4.2
step 2, started with an empty current partition and the base size. -/
def specSplit (base threshold : Nat) (usersets : List ObjectAndRelation) : List (List ObjectAndRelation) :=
  specSplitGo base threshold base [] usersets

lemma slicesLoop_splitScan_eq_spec (base th : Nat) :
    ∀ (rest us : List ObjectAndRelation) (start : Nat)
      (p : List ObjectAndRelation) (running : Nat),
      p ≠ [] → us.drop start = p ++ rest →
      slicesLoop us start
          (splitScan base th (start + p.length) (start + p.length) running rest)
        = specSplitGo base th running p rest := by
  intro rest
  induction rest with
  | nil =>
    intro us start p running hp hdrop
    simp [splitScan, specSplitGo, slicesLoop, hdrop]
  | cons u rest2 ih =>
    intro us start p running hp hdrop
    have hpos : 0 < start + p.length := by
      cases p with
      | nil => exact absurd rfl hp
      | cons a l => simp
    by_cases hth : th ≤ usersetSize u + running
    · rw [splitScan, if_pos ⟨hpos, hth⟩, specSplitGo, if_pos ⟨hp, hth⟩]
      rw [slicesLoop]
      have htake : (us.drop start).take (start + p.length - start) = p := by
        rw [hdrop, Nat.add_sub_cancel_left]
        exact List.take_left p (u :: rest2)
      rw [htake]
      congr 1
      have hdrop2 : us.drop (start + p.length) = [u] ++ rest2 := by
        rw [← List.drop_drop, hdrop]
        simp [List.drop_left]
      have := ih us (start + p.length) [u] (base + usersetSize u) (by simp) hdrop2
      simpa using this
    · rw [splitScan, if_neg (fun hc => hth hc.2), specSplitGo, if_neg (fun hc => hth hc.2)]
      have hdrop2 : us.drop start = (p ++ [u]) ++ rest2 := by
        rw [hdrop]; simp
      have := ih us start (p ++ [u]) (running + usersetSize u) (by simp) hdrop2
      simpa [Nat.add_assoc] using this

lemma splitPartitions_eq_specSplit (base th : Nat) (us : List ObjectAndRelation) (h : us ≠ []) :
    splitPartitions base th us = specSplit base th us := by
  cases us with
  | nil => exact absurd rfl h
  | cons u rest =>
    show slicesLoop (u :: rest) 0 (splitScan base th 0 0 base (u :: rest))
      = specSplitGo base th base [] (u :: rest)
    rw [splitScan, if_neg (by simp), specSplitGo, if_neg (by simp)]
    have := slicesLoop_splitScan_eq_spec base th rest (u :: rest) 0 [u]
      (base + usersetSize u) (by simp) (by simp)
    simpa using this

lemma specSplitGo_join (base th : Nat) :
    ∀ (l : List ObjectAndRelation) (running : Nat) (cur : List ObjectAndRelation),
      (specSplitGo base th running cur l).flatten = cur ++ l := by
  intro l
  induction l with
  | nil => intro running cur; simp [specSplitGo]
  | cons u rest ih =>
    intro running cur
    rw [specSplitGo]
    by_cases hc : cur ≠ [] ∧ th ≤ usersetSize u + running
    · rw [if_pos hc]; simp [ih]
    · rw [if_neg hc]; simp [ih]

lemma splitPartitions_join (base th : Nat) (us : List ObjectAndRelation) (h : us ≠ []) :
    (splitPartitions base th us).flatten = us := by
  rw [splitPartitions_eq_specSplit base th us h]
  simpa using specSplitGo_join base th us base []

lemma specSplitGo_size_bound (base th : Nat) :
    ∀ (l : List ObjectAndRelation) (cur : List ObjectAndRelation),
      cur ≠ [] → (2 ≤ cur.length → base + partMembersSize cur < th) →
      ∀ p ∈ specSplitGo base th (base + partMembersSize cur) cur l,
        p ≠ [] ∧ (2 ≤ p.length → base + partMembersSize p < th) := by
  intro l
  induction l with
  | nil =>
    intro cur hne hbound p hp
    rw [specSplitGo] at hp
    simp only [List.mem_singleton] at hp
    subst hp
    exact ⟨hne, hbound⟩
  | cons u rest ih =>
    intro cur hne hbound p hp
    rw [specSplitGo] at hp
    by_cases hth : th ≤ usersetSize u + (base + partMembersSize cur)
    · rw [if_pos ⟨hne, hth⟩] at hp
      rcases List.mem_cons.mp hp with hp1 | hp2
      · subst hp1; exact ⟨hne, hbound⟩
      · have hrun : base + usersetSize u = base + partMembersSize [u] := by
          simp [partMembersSize]
        rw [hrun] at hp2
        exact ih [u] (by simp) (by simp) p hp2
    · rw [if_neg (fun hc => hth hc.2)] at hp
      have hlt : usersetSize u + (base + partMembersSize cur) < th := Nat.lt_of_not_le hth
      have hrun : base + partMembersSize cur + usersetSize u = base + partMembersSize (cur ++ [u]) := by
        simp [partMembersSize]
        omega
      rw [hrun] at hp
      refine ih (cur ++ [u]) (by simp) (fun _ => ?_) p hp
      rw [← hrun]
      omega

lemma splitPartitions_size_bound (base th : Nat) (us : List ObjectAndRelation) (h : us ≠ []) :
    ∀ p ∈ splitPartitions base th us,
      p ≠ [] ∧ (2 ≤ p.length → base + partMembersSize p < th) := by
  rw [splitPartitions_eq_specSplit base th us h]
  cases us with
  | nil => exact absurd rfl h
  | cons u rest =>
    show ∀ p ∈ specSplitGo base th base [] (u :: rest), _
    rw [specSplitGo, if_neg (by simp)]
    have hrun : base + usersetSize u = base + partMembersSize [u] := by
      simp [partMembersSize]
    intro p hp
    rw [show ([] : List ObjectAndRelation) ++ [u] = [u] from rfl, hrun] at hp
    exact specSplitGo_size_bound base th rest [u] (by simp) (by simp) p hp

lemma splitScan_mem_bounds (base th : Nat) :
    ∀ (l : List ObjectAndRelation) (index count cur : Nat) (j : Nat),
      j ∈ splitScan base th index count cur l → index ≤ j ∧ j < index + l.length := by
  intro l
  induction l with
  | nil => intro index count cur j hj; rw [splitScan] at hj; simp at hj
  | cons u rest ih =>
    intro index count cur j hj
    rw [splitScan] at hj
    by_cases hc : 0 < count ∧ th ≤ usersetSize u + cur
    · rw [if_pos hc] at hj
      rcases List.mem_cons.mp hj with hj1 | hj2
      · subst hj1; simp
      · have := ih (index + 1) (count + 1) (base + usersetSize u) j hj2
        constructor <;> [omega; (simp only [List.length_cons]; omega)]
    · rw [if_neg hc] at hj
      have := ih (index + 1) (count + 1) (cur + usersetSize u) j hj
      constructor <;> [omega; (simp only [List.length_cons]; omega)]

lemma splitScan_pairwise (base th : Nat) :
    ∀ (l : List ObjectAndRelation) (index count cur : Nat),
      List.Pairwise (fun a b => a < b) (splitScan base th index count cur l) := by
  intro l
  induction l with
  | nil => intro index count cur; rw [splitScan]; exact List.Pairwise.nil
  | cons u rest ih =>
    intro index count cur
    rw [splitScan]
    by_cases hc : 0 < count ∧ th ≤ usersetSize u + cur
    · rw [if_pos hc]
      refine List.pairwise_cons.mpr ⟨?_, ih (index + 1) (count + 1) (base + usersetSize u)⟩
      intro j hj
      have := splitScan_mem_bounds base th rest (index + 1) (count + 1) (base + usersetSize u) j hj
      omega
    · rw [if_neg hc]
      exact ih (index + 1) (count + 1) (cur + usersetSize u)

lemma computeSplitIndexes_bounds (base th : Nat) (us : List ObjectAndRelation) :
    ∀ j ∈ computeSplitIndexes base th us, 0 < j ∧ j < us.length := by
  intro j hj
  cases us with
  | nil => rw [computeSplitIndexes, splitScan] at hj; simp at hj
  | cons u rest =>
    rw [computeSplitIndexes, splitScan, if_neg (by simp)] at hj
    have := splitScan_mem_bounds base th rest 1 1 (base + usersetSize u) j hj
    simp only [List.length_cons]
    omega

/-- TupleQuerySplitter (sql.go lines 174-186), restricted to the fields with
behavioural content: whether a PrepareTransaction hook is configured, the
split threshold, the base builder, the optional global limit (a uint64
behind a pointer, so a value below 2 to the 64) and the usersets. -/
structure TupleQuerySplitter where
  hasPrepareTransaction : Bool
  SplitAtEstimatedQuerySize : Nat
  FilteredQueryBuilder : SchemaQueryFilterer
  Limit : Option Nat
  Usersets : List ObjectAndRelation

/-- The query-materialisation loop of SplitAndExecute (sql.go lines 210-216):
one FilterToUsersets call per partition, a panic (none) propagating. -/
def buildQueries (sqf : SchemaQueryFilterer) : List (List ObjectAndRelation) → Option (List SchemaQueryFilterer)
  | [] => some []
  | part :: rest =>
    match sqf.FilterToUsersets part, buildQueries sqf rest with
    | some q, some qs => some (q :: qs)
    | _, _ => none

/-- The query list of SplitAndExecute (sql.go lines 192-219): when usersets
were supplied, one query per size-bounded partition; otherwise the base
builder alone. -/
def computeQueries (ctq : TupleQuerySplitter) : Option (List SchemaQueryFilterer) :=
  if ctq.Usersets.isEmpty then some [ctq.FilteredQueryBuilder]
  else
    buildQueries ctq.FilteredQueryBuilder
      (splitPartitions ctq.FilteredQueryBuilder.currentEstimatedSize ctq.SplitAtEstimatedQuerySize ctq.Usersets)

/-- Go conversion of a uint64 value to a 64-bit signed int, as in the
expression int(limit) at sql.go line 294. -/
def intOfUint64 (n : Nat) : Int :=
  if n < 2 ^ 63 then (n : Int) else (n : Int) - 2 ^ 64

/-- Go uint64 subtraction, as in *ctq.Limit - uint64(len(tuples)) at sql.go
line 231: wraps modulo 2 to the 64. -/
def usub64 (a b : Nat) : Nat :=
  (2 ^ 64 + a - b) % 2 ^ 64

/-- The uniform error prefix errUnableToQueryTuples (sql.go line 22), applied
by fmt.Errorf to the underlying cause. -/
def wrapErr (cause : String) : String :=
  "unable to query tuples: " ++ cause

/-- The outcome the backend produces for one partition execution: possible
failures of SQL rendering, BeginTx, the preparation hook, and statement
execution; the matching result rows in backend order, each either decoding
to a tuple or failing to scan; and the rows.Err outcome after a complete
iteration. -/
structure PartitionBehavior where
  toSqlErr : Option String
  beginTxErr : Option String
  prepareErr : Option String
  queryErr : Option String
  rows : List (Except String RelationTuple)
  iterErr : Option String

/-- The row loop of executeSingleQuery (sql.go lines 292-323): while a row is
available, first return the accumulated tuples when a positive limit has been
reached (comparing the int conversion of the uint64 limit), then scan the
row, failing with a wrapped error on a scan error; when the rows are
exhausted, a rows.Err failure is wrapped, else the tuples are returned. -/
def rowLoop (limit : Nat) (iterErr : Option String) : List RelationTuple → List (Except String RelationTuple) → Except String (List RelationTuple)
  | tuples, [] =>
    match iterErr with
    | some e => Except.error (wrapErr e)
    | none => Except.ok tuples
  | tuples, r :: rest =>
    if 0 < limit ∧ intOfUint64 limit ≤ (tuples.length : Int) then Except.ok tuples
    else
      match r with
      | Except.error e => Except.error (wrapErr e)
      | Except.ok t => rowLoop limit iterErr (tuples ++ [t]) rest

/-- executeSingleQuery (sql.go lines 251-327): render the SQL, begin the
read-only transaction, run the preparation hook when configured, issue the
statement, then stream the rows; every failure is returned wrapped with the
uniform prefix and no tuples. The rows the backend serves honour the LIMIT
rendered into the statement (the builder's limit field). -/
def executeSingleQuery (ctq : TupleQuerySplitter) (query : SchemaQueryFilterer) (limit : Nat) (b : PartitionBehavior) : Except String (List RelationTuple) :=
  match b.toSqlErr with
  | some e => Except.error (wrapErr e)
  | none =>
    match b.beginTxErr with
    | some e => Except.error (wrapErr e)
    | none =>
      match (if ctq.hasPrepareTransaction then b.prepareErr else none) with
      | some e => Except.error (wrapErr e)
      | none =>
        match b.queryErr with
        | some e => Except.error (wrapErr e)
        | none =>
          rowLoop limit b.iterErr []
            (match query.queryBuilder.limit with
             | none => b.rows
             | some n => b.rows.take n)

/-- The execution loop of SplitAndExecute (sql.go lines 227-244): for each
query, when a global limit is set, compute newLimit by uint64 subtraction,
stop when it is zero, else cap the query; a failing partition aborts with its
error, a successful one appends its tuples. -/
def execLoop (ctq : TupleQuerySplitter) (db : Nat → PartitionBehavior) : Nat → List RelationTuple → List SchemaQueryFilterer → Except String (List RelationTuple)
  | _, tuples, [] => Except.ok tuples
  | index, tuples, query :: rest =>
    match ctq.Limit with
    | none =>
      match executeSingleQuery ctq query 0 (db index) with
      | Except.error e => Except.error e
      | Except.ok found => execLoop ctq db (index + 1) (tuples ++ found) rest
    | some lim =>
      let newLimit := usub64 lim tuples.length
      if newLimit = 0 then Except.ok tuples
      else
        match executeSingleQuery ctq (query.Limit newLimit) newLimit (db index) with
        | Except.error e => Except.error e
        | Except.ok found => execLoop ctq db (index + 1) (tuples ++ found) rest

/-- SplitAndExecute (sql.go lines 190-249): build the per-partition queries
(none models the panic of FilterToUsersets), then run the execution loop from
index 0 with no accumulated tuples. -/
def SplitAndExecute (ctq : TupleQuerySplitter) (db : Nat → PartitionBehavior) : Option (Except String (List RelationTuple)) :=
  (computeQueries ctq).map (fun queries => execLoop ctq db 0 [] queries)

/-- A backend behaviour with no failure at any stage and the given matching
rows. -/
def cleanBehavior (rows : List RelationTuple) : PartitionBehavior :=
  { toSqlErr := none, beginTxErr := none, prepareErr := none, queryErr := none
    rows := rows.map Except.ok, iterErr := none }

/-- The total number of matching rows the backend holds for n consecutive
partitions starting at the given index. -/
def sumRows (rowsOf : Nat → List RelationTuple) : Nat → Nat → Nat
  | _, 0 => 0
  | idx, n + 1 => (rowsOf idx).length + sumRows rowsOf (idx + 1) n

lemma usub64_no_wrap (a b : Nat) (hb : b ≤ a) (ha : a < 2 ^ 64) :
    usub64 a b = a - b := by
  rw [usub64]
  omega

lemma rowLoop_all_ok (n : Nat) (hn : n < 2 ^ 63) :
    ∀ (rs : List RelationTuple) (tuples : List RelationTuple),
      tuples.length + rs.length ≤ n →
      rowLoop n none tuples (rs.map Except.ok) = Except.ok (tuples ++ rs) := by
  intro rs
  induction rs with
  | nil => intro tuples hlen; simp [rowLoop]
  | cons r rs2 ih =>
    intro tuples hlen
    simp only [List.map_cons]
    rw [rowLoop]
    have hcond : ¬(0 < n ∧ intOfUint64 n ≤ (tuples.length : Int)) := by
      rintro ⟨hpos, hle⟩
      rw [intOfUint64, if_pos hn] at hle
      have : n ≤ tuples.length := by exact_mod_cast hle
      simp only [List.length_cons] at hlen
      omega
    rw [if_neg hcond]
    have := ih (tuples ++ [r]) (by simp only [List.length_append, List.length_cons, List.length_nil] at hlen ⊢; omega)
    simpa using this

lemma executeSingleQuery_clean (ctq : TupleQuerySplitter) (q : SchemaQueryFilterer)
    (n : Nat) (hn : n < 2 ^ 63) (rows : List RelationTuple) :
    executeSingleQuery ctq (q.Limit n) n (cleanBehavior rows) = Except.ok (rows.take n) := by
  have hlim : (q.Limit n).queryBuilder.limit = some n := rfl
  rw [executeSingleQuery]
  simp only [cleanBehavior, hlim]
  rw [show (if ctq.hasPrepareTransaction then (none : Option String) else none) = none by simp]
  rw [← List.map_take]
  have := rowLoop_all_ok n hn (rows.take n) []
    (by simp only [List.length_nil, List.length_take, Nat.zero_add]; omega)
  simpa using this

lemma rowLoop_length (n : Nat) (ie : Option String) :
    ∀ (rs : List (Except String RelationTuple)) (tuples ts : List RelationTuple),
      rowLoop n ie tuples rs = Except.ok ts → ts.length ≤ tuples.length + rs.length := by
  intro rs
  induction rs with
  | nil =>
    intro tuples ts h
    simp only [rowLoop] at h
    cases hie : ie with
    | some e => rw [hie] at h; simp at h
    | none =>
      rw [hie] at h
      simp only [Except.ok.injEq] at h
      subst h
      simp
  | cons r rs2 ih =>
    intro tuples ts h
    simp only [rowLoop] at h
    by_cases hc : 0 < n ∧ intOfUint64 n ≤ (tuples.length : Int)
    · rw [if_pos hc] at h
      simp only [Except.ok.injEq] at h
      subst h
      simp only [List.length_cons]
      omega
    · rw [if_neg hc] at h
      cases r with
      | error e => simp at h
      | ok t =>
        have := ih (tuples ++ [t]) ts h
        simp only [List.length_append, List.length_cons, List.length_nil] at this ⊢
        omega

lemma executeSingleQuery_length (ctq : TupleQuerySplitter) (q : SchemaQueryFilterer)
    (n : Nat) (b : PartitionBehavior) (ts : List RelationTuple)
    (h : executeSingleQuery ctq (q.Limit n) n b = Except.ok ts) : ts.length ≤ n := by
  rw [executeSingleQuery] at h
  cases h1 : b.toSqlErr with
  | some e => rw [h1] at h; exact absurd h (by simp)
  | none =>
  rw [h1] at h
  cases h2 : b.beginTxErr with
  | some e => rw [h2] at h; exact absurd h (by simp)
  | none =>
  rw [h2] at h
  cases h3 : (if ctq.hasPrepareTransaction then b.prepareErr else none) with
  | some e => rw [h3] at h; exact absurd h (by simp)
  | none =>
  rw [h3] at h
  cases h4 : b.queryErr with
  | some e => rw [h4] at h; exact absurd h (by simp)
  | none =>
  rw [h4] at h
  have hlim : (q.Limit n).queryBuilder.limit = some n := rfl
  rw [hlim] at h
  have := rowLoop_length n b.iterErr (b.rows.take n) [] ts h
  have htk : (b.rows.take n).length ≤ n := by
    simp only [List.length_take]
    omega
  have hz : ([] : List RelationTuple).length + (b.rows.take n).length ≤ n := by
    simp only [List.length_nil, Nat.zero_add]
    exact htk
  exact Nat.le_trans this hz

lemma rowLoop_error_wrapped (n : Nat) (ie : Option String) :
    ∀ (rs : List (Except String RelationTuple)) (tuples : List RelationTuple) (e : String),
      rowLoop n ie tuples rs = Except.error e → ∃ c, e = wrapErr c := by
  intro rs
  induction rs with
  | nil =>
    intro tuples e h
    simp only [rowLoop] at h
    cases hie : ie with
    | some c =>
      rw [hie] at h
      simp only [Except.error.injEq] at h
      exact ⟨c, h.symm⟩
    | none => rw [hie] at h; simp at h
  | cons r rs2 ih =>
    intro tuples e h
    simp only [rowLoop] at h
    by_cases hc : 0 < n ∧ intOfUint64 n ≤ (tuples.length : Int)
    · rw [if_pos hc] at h; simp at h
    · rw [if_neg hc] at h
      cases r with
      | error c =>
        simp only [Except.error.injEq] at h
        exact ⟨c, h.symm⟩
      | ok t => exact ih (tuples ++ [t]) e h

lemma executeSingleQuery_error_wrapped (ctq : TupleQuerySplitter) (q : SchemaQueryFilterer)
    (lim : Nat) (b : PartitionBehavior) (e : String)
    (h : executeSingleQuery ctq q lim b = Except.error e) : ∃ c, e = wrapErr c := by
  rw [executeSingleQuery] at h
  cases h1 : b.toSqlErr with
  | some c => rw [h1] at h; simp only [Except.error.injEq] at h; exact ⟨c, h.symm⟩
  | none =>
  rw [h1] at h
  cases h2 : b.beginTxErr with
  | some c => rw [h2] at h; simp only [Except.error.injEq] at h; exact ⟨c, h.symm⟩
  | none =>
  rw [h2] at h
  cases h3 : (if ctq.hasPrepareTransaction then b.prepareErr else none) with
  | some c => rw [h3] at h; simp only [Except.error.injEq] at h; exact ⟨c, h.symm⟩
  | none =>
  rw [h3] at h
  cases h4 : b.queryErr with
  | some c => rw [h4] at h; simp only [Except.error.injEq] at h; exact ⟨c, h.symm⟩
  | none =>
  rw [h4] at h
  exact rowLoop_error_wrapped lim b.iterErr _ [] e h

lemma execLoop_clean (ctq : TupleQuerySplitter) (db : Nat → PartitionBehavior)
    (rowsOf : Nat → List RelationTuple) (L : Nat)
    (hL : ctq.Limit = some L) (hL63 : L < 2 ^ 63)
    (hdb : ∀ k, db k = cleanBehavior (rowsOf k)) :
    ∀ (queries : List SchemaQueryFilterer) (idx : Nat) (tuples : List RelationTuple),
      tuples.length ≤ L →
      ∃ ts, execLoop ctq db idx tuples queries = Except.ok ts ∧
        ts.length = min L (tuples.length + sumRows rowsOf idx queries.length) := by
  intro queries
  induction queries with
  | nil =>
    intro idx tuples hlen
    refine ⟨tuples, by simp [execLoop], ?_⟩
    simp only [List.length_nil, sumRows]
    omega
  | cons q rest ih =>
    intro idx tuples hlen
    have husub : usub64 L tuples.length = L - tuples.length :=
      usub64_no_wrap L tuples.length hlen (by omega)
    have h1 : execLoop ctq db idx tuples (q :: rest)
        = (if L - tuples.length = 0 then Except.ok tuples
           else
             match executeSingleQuery ctq (q.Limit (L - tuples.length)) (L - tuples.length) (db idx) with
             | Except.error e => Except.error e
             | Except.ok found => execLoop ctq db (idx + 1) (tuples ++ found) rest) := by
      simp only [execLoop, hL, husub]
    by_cases hstop : L - tuples.length = 0
    · rw [h1, if_pos hstop]
      refine ⟨tuples, rfl, ?_⟩
      simp only [List.length_cons, sumRows]
      omega
    · have hexec : executeSingleQuery ctq (q.Limit (L - tuples.length)) (L - tuples.length) (db idx)
          = Except.ok ((rowsOf idx).take (L - tuples.length)) := by
        rw [hdb idx]
        exact executeSingleQuery_clean ctq q (L - tuples.length) (by omega) (rowsOf idx)
      have hlen2 : (tuples ++ (rowsOf idx).take (L - tuples.length)).length ≤ L := by
        simp only [List.length_append, List.length_take]
        omega
      obtain ⟨ts, hts, hlen3⟩ := ih (idx + 1) (tuples ++ (rowsOf idx).take (L - tuples.length)) hlen2
      refine ⟨ts, ?_, ?_⟩
      · rw [h1, if_neg hstop, hexec]
        exact hts
      · rw [hlen3]
        simp only [List.length_append, List.length_take, List.length_cons, sumRows]
        omega

lemma execLoop_le (ctq : TupleQuerySplitter) (db : Nat → PartitionBehavior) (L : Nat)
    (hL : ctq.Limit = some L) (hL64 : L < 2 ^ 64) :
    ∀ (queries : List SchemaQueryFilterer) (idx : Nat) (tuples : List RelationTuple),
      tuples.length ≤ L →
      ∀ ts, execLoop ctq db idx tuples queries = Except.ok ts → ts.length ≤ L := by
  intro queries
  induction queries with
  | nil =>
    intro idx tuples hlen ts h
    simp only [execLoop, Except.ok.injEq] at h
    subst h
    exact hlen
  | cons q rest ih =>
    intro idx tuples hlen ts h
    have husub : usub64 L tuples.length = L - tuples.length :=
      usub64_no_wrap L tuples.length hlen hL64
    simp only [execLoop, hL, husub] at h
    by_cases hstop : L - tuples.length = 0
    · rw [if_pos hstop] at h
      simp only [Except.ok.injEq] at h
      subst h
      exact hlen
    · rw [if_neg hstop] at h
      cases hx : executeSingleQuery ctq (q.Limit (L - tuples.length)) (L - tuples.length) (db idx) with
      | error e => rw [hx] at h; simp at h
      | ok found =>
        rw [hx] at h
        have hfl := executeSingleQuery_length ctq q (L - tuples.length) (db idx) found hx
        refine ih (idx + 1) (tuples ++ found) ?_ ts h
        simp only [List.length_append]
        omega

lemma execLoop_error_at (ctq : TupleQuerySplitter) (db : Nat → PartitionBehavior) (e : String)
    (hnone : ctq.Limit = none) :
    ∀ (k : Nat) (queries : List SchemaQueryFilterer) (idx : Nat) (tuples : List RelationTuple)
      (qk : SchemaQueryFilterer),
      (∀ j qj, j < k → queries[j]? = some qj →
        ∃ ts, executeSingleQuery ctq qj 0 (db (idx + j)) = Except.ok ts) →
      queries[k]? = some qk →
      executeSingleQuery ctq qk 0 (db (idx + k)) = Except.error e →
      execLoop ctq db idx tuples queries = Except.error e := by
  intro k
  induction k with
  | zero =>
    intro queries idx tuples qk hok hk herr
    cases queries with
    | nil => simp at hk
    | cons q rest =>
      simp only [List.getElem?_cons_zero, Option.some.injEq] at hk
      subst hk
      rw [Nat.add_zero] at herr
      simp only [execLoop, hnone, herr]
  | succ k2 ih =>
    intro queries idx tuples qk hok hk herr
    cases queries with
    | nil => simp at hk
    | cons q rest =>
      obtain ⟨ts0, hts0⟩ := hok 0 q (Nat.succ_pos k2) (by simp)
      rw [Nat.add_zero] at hts0
      simp only [execLoop, hnone, hts0]
      refine ih rest (idx + 1) (tuples ++ ts0) qk ?_ (by simpa using hk) ?_
      · intro j qj hj hqj
        rw [show idx + 1 + j = idx + (j + 1) by omega]
        exact hok (j + 1) qj (Nat.succ_lt_succ hj) (by simpa using hqj)
      · rw [show idx + 1 + k2 = idx + (k2 + 1) by omega]
        exact herr

lemma foldl_usersets (schema : SchemaInformation) :
    ∀ (us : List ObjectAndRelation) (cl : List Sqlizer) (n : Nat),
      us.foldl (fun (st : List Sqlizer × Nat) u =>
          (st.1 ++ [usersetEqClause schema u], st.2 + usersetSize u)) (cl, n)
        = (cl ++ us.map (usersetEqClause schema), n + partMembersSize us) := by
  intro us
  induction us with
  | nil => intro cl n; simp [partMembersSize]
  | cons u rest ih =>
    intro cl n
    simp only [List.foldl_cons]
    rw [ih]
    simp only [Prod.mk.injEq]
    constructor
    · simp
    · simp only [partMembersSize, List.map_cons, List.sum_cons]
      omega

lemma buildQueries_isSome (sqf : SchemaQueryFilterer) :
    ∀ (parts : List (List ObjectAndRelation)), (∀ p ∈ parts, p ≠ []) →
      (buildQueries sqf parts).isSome := by
  intro parts
  induction parts with
  | nil => intro _; simp [buildQueries]
  | cons p rest ih =>
    intro hall
    have hrest := ih (fun q hq => hall q (List.mem_cons_of_mem p hq))
    obtain ⟨qs, hqs⟩ := Option.isSome_iff_exists.mp hrest
    have hp : p ≠ [] := hall p (List.mem_cons_self p rest)
    cases p with
    | nil => exact absurd rfl hp
    | cons a l =>
      simp only [buildQueries, SchemaQueryFilterer.FilterToUsersets, List.isEmpty_cons, hqs]
      simp

/-- The column names the postgres adapter wires in. -/
def sampleSchema : SchemaInformation :=
  ⟨"relation_tuple", "namespace", "object_id", "relation",
   "userset_namespace", "userset_object_id", "userset_relation"⟩

def emptySelect : SelectBuilder := ⟨[], none⟩

def baseFilterer : SchemaQueryFilterer := NewSchemaQueryFilterer sampleSchema emptySelect

/-- Scenario userset of estimated size 2. -/
def uA : ObjectAndRelation := ⟨"a", "1", ""⟩

/-- Scenario userset of estimated size 4. -/
def uB : ObjectAndRelation := ⟨"bb", "22", ""⟩

/-- Scenario userset of estimated size 19. -/
def uC : ObjectAndRelation := ⟨"ccccccccccccccccc", "3", ""⟩

/-- A userset of estimated size 15. -/
def wideA : ObjectAndRelation := ⟨"aaaaaaaaaaaaaaa", "", ""⟩

/-- Another userset of estimated size 15. -/
def wideB : ObjectAndRelation := ⟨"bbbbbbbbbbbbbbb", "", ""⟩

def sampleTuple : RelationTuple := ⟨⟨"document", "doc1", "viewer"⟩, ⟨"user", "alice", "..."⟩⟩

/-- Claim C2 as stated: every partition strictly under the threshold, except
a singleton whose own userset size already exceeds the threshold. -/
def specClaimSizeBound : Prop :=
  ∀ (base threshold : Nat) (us : List ObjectAndRelation), us ≠ [] →
    ∀ p ∈ splitPartitions base threshold us,
      base + partMembersSize p < threshold ∨ (p.length = 1 ∧ threshold < partMembersSize p)

/-- C1: the split points are computed by a single left-to-right scan with a
running size seeded from the base builder size; a partition closes right
before userset i exactly when the current partition is non-empty and size(i)
plus the running size reaches the threshold, the running size resetting to
base and the overflowing userset starting the new partition (proved as the
equality of the code's split-index-and-slice computation with the direct
partitioning the spec describes); and the concrete scenario with threshold
20, base 0, sizes 2, 4, 19 yields the first two usersets together and the
third alone. -/
theorem claim_C1_split_points :
    (∀ (base threshold : Nat) (us : List ObjectAndRelation), us ≠ [] →
      splitPartitions base threshold us = specSplit base threshold us)
    ∧ splitPartitions 0 20 [uA, uB, uC] = [[uA, uB], [uC]] := by
  refine ⟨fun base th us h => splitPartitions_eq_specSplit base th us h, ?_⟩
  decide

/-- Witness for C1: the refinement applied at a concrete non-empty list. -/
theorem claim_C1_witness :
    ([uA, uB, uC] : List ObjectAndRelation) ≠ [] ∧
      splitPartitions 0 20 [uA, uB, uC] = specSplit 0 20 [uA, uB, uC] :=
  ⟨by decide, claim_C1_split_points.1 0 20 [uA, uB, uC] (by decide)⟩

/-- Counterexample for C2: with base estimated size 10 and threshold 20, the
usersets of sizes 15 and 15 split into two singleton partitions, each of
estimated size 10 + 15 = 25, at or above the threshold, while neither
userset's own size (15) exceeds the threshold; the exception in the claim
does not cover them. -/
theorem claim_C2_counterexample : ¬ specClaimSizeBound := by
  intro h
  have hins := h 10 20 [wideA, wideB] (by decide) [wideA] (by decide)
  exact absurd hins (by decide)

/-- C2 (amended): every partition with at least two members has estimated
size base + members strictly under the threshold; a singleton partition may
reach or exceed the threshold (whenever base plus its userset's size does)
but is still emitted; no partition is empty and no userset is dropped. -/
theorem claim_C2_size_bound (base threshold : Nat) (us : List ObjectAndRelation) (h : us ≠ []) :
    (∀ p ∈ splitPartitions base threshold us,
      p ≠ [] ∧ (2 ≤ p.length → base + partMembersSize p < threshold))
    ∧ (splitPartitions base threshold us).flatten = us :=
  ⟨splitPartitions_size_bound base threshold us h, splitPartitions_join base threshold us h⟩

/-- Witness for the amended C2, at an input whose split holds a two-member
partition (with base 5 and threshold 20, the sizes 2, 4, 19 split into
[uA, uB] and [uC]), so the size bound for partitions of two or more members
is exercised non-vacuously. -/
theorem claim_C2_witness :
    ([uA, uB, uC] : List ObjectAndRelation) ≠ [] ∧
      ((∀ p ∈ splitPartitions 5 20 [uA, uB, uC],
        p ≠ [] ∧ (2 ≤ p.length → 5 + partMembersSize p < 20))
      ∧ (splitPartitions 5 20 [uA, uB, uC]).flatten = [uA, uB, uC]) ∧
      [uA, uB] ∈ splitPartitions 5 20 [uA, uB, uC] ∧
      2 ≤ ([uA, uB] : List ObjectAndRelation).length :=
  ⟨by decide, claim_C2_size_bound 5 20 [uA, uB, uC] (by decide), by decide, by decide⟩

/-- C5: concatenating the partitions in order reproduces the original
userset list exactly. -/
theorem claim_C5_lossless (base threshold : Nat) (us : List ObjectAndRelation) (h : us ≠ []) :
    (splitPartitions base threshold us).flatten = us :=
  splitPartitions_join base threshold us h

/-- Witness for C5 at a concrete input. -/
theorem claim_C5_witness :
    ([uA, uB, uC] : List ObjectAndRelation) ≠ [] ∧
      (splitPartitions 0 6 [uA, uB, uC]).flatten = [uA, uB, uC] :=
  ⟨by decide, claim_C5_lossless 0 6 [uA, uB, uC] (by decide)⟩

/-- C9: for a non-empty userset list every partition handed to
FilterToUsersets is non-empty (the split indexes are strictly increasing,
positive and below the list length), and SplitAndExecute never reaches the
empty-list panic (modelled: it never returns none). -/
theorem claim_C9_no_empty_partition :
    (∀ (base threshold : Nat) (us : List ObjectAndRelation), us ≠ [] →
      (∀ p ∈ splitPartitions base threshold us, p ≠ []) ∧
      List.Pairwise (fun a b => a < b) (computeSplitIndexes base threshold us) ∧
      (∀ j ∈ computeSplitIndexes base threshold us, 0 < j ∧ j < us.length))
    ∧ (∀ (ctq : TupleQuerySplitter) (db : Nat → PartitionBehavior),
        SplitAndExecute ctq db ≠ none) := by
  constructor
  · intro base th us h
    refine ⟨fun p hp => (splitPartitions_size_bound base th us h p hp).1,
      splitScan_pairwise base th us 0 0 base, computeSplitIndexes_bounds base th us⟩
  · intro ctq db hcontra
    rw [SplitAndExecute] at hcontra
    have hq : computeQueries ctq = none := by
      cases hcq : computeQueries ctq with
      | none => rfl
      | some qs => rw [hcq] at hcontra; simp at hcontra
    rw [computeQueries] at hq
    by_cases hemp : ctq.Usersets.isEmpty
    · rw [if_pos hemp] at hq; simp at hq
    · rw [if_neg hemp] at hq
      have hne : ctq.Usersets ≠ [] := by
        intro hnil
        rw [hnil] at hemp
        simp at hemp
      have hsome := buildQueries_isSome ctq.FilteredQueryBuilder
        (splitPartitions ctq.FilteredQueryBuilder.currentEstimatedSize
          ctq.SplitAtEstimatedQuerySize ctq.Usersets)
        (fun p hp => (splitPartitions_size_bound _ _ ctq.Usersets hne p hp).1)
      rw [hq] at hsome
      simp at hsome

/-- Witness for C9: the first part applied at a concrete non-empty list. -/
theorem claim_C9_witness :
    ([uA, uB, uC] : List ObjectAndRelation) ≠ [] ∧
      ((∀ p ∈ splitPartitions 0 5 [uA, uB, uC], p ≠ []) ∧
      List.Pairwise (fun a b => a < b) (computeSplitIndexes 0 5 [uA, uB, uC]) ∧
      (∀ j ∈ computeSplitIndexes 0 5 [uA, uB, uC], 0 < j ∧ j < ([uA, uB, uC] : List ObjectAndRelation).length)) :=
  ⟨by decide, claim_C9_no_empty_partition.1 0 5 [uA, uB, uC] (by decide)⟩

lemma filterToUsersets_eq (sqf : SchemaQueryFilterer) (us : List ObjectAndRelation) (h : us ≠ []) :
    sqf.FilterToUsersets us = some
      { sqf with
        queryBuilder := sqf.queryBuilder.Where (Sqlizer.orDisj (us.map (usersetEqClause sqf.schema)))
        currentEstimatedSize := sqf.currentEstimatedSize + partMembersSize us } := by
  rw [SchemaQueryFilterer.FilterToUsersets]
  rw [if_neg (by simpa using h)]
  rw [foldl_usersets sqf.schema us [] sqf.currentEstimatedSize]
  simp

/-- C6: FilterToUsersets on an empty list fails fatally (the Go panic,
modelled as none) rather than returning a recoverable error; on any non-empty
list it returns a builder whose statement gained exactly one disjunctive
clause holding one (subject type, subject id, subject relation) equality
conjunction per reference. -/
theorem claim_C6_usersets_filter :
    (∀ sqf : SchemaQueryFilterer, sqf.FilterToUsersets [] = none)
    ∧ (∀ (sqf : SchemaQueryFilterer) (us : List ObjectAndRelation), us ≠ [] →
        sqf.FilterToUsersets us = some
          { sqf with
            queryBuilder := sqf.queryBuilder.Where (Sqlizer.orDisj (us.map (usersetEqClause sqf.schema)))
            currentEstimatedSize := sqf.currentEstimatedSize + partMembersSize us }) :=
  ⟨fun _ => rfl, filterToUsersets_eq⟩

/-- Witness for C6 at a concrete non-empty list. -/
theorem claim_C6_witness :
    ([uA] : List ObjectAndRelation) ≠ [] ∧
      baseFilterer.FilterToUsersets [uA] = some
        { baseFilterer with
          queryBuilder := baseFilterer.queryBuilder.Where
            (Sqlizer.orDisj ([uA].map (usersetEqClause baseFilterer.schema)))
          currentEstimatedSize := baseFilterer.currentEstimatedSize + partMembersSize [uA] } :=
  ⟨by decide, claim_C6_usersets_filter.2 baseFilterer [uA] (by decide)⟩

/-- The operand bytes FilterToSubjectFilter adds to the estimated size. -/
def subjectFilterOperandSize (f : SubjectFilter) : Nat :=
  f.SubjectType.length + f.OptionalSubjectId.length +
    (match f.OptionalRelation with
     | none => 0
     | some rel => (defaultEmpty rel.Relation Ellipsis).length)

/-- Claim C7 as stated: every filter operation grows the estimated size by
the byte length of its new operand strings and the attribute list by exactly
one key/value pair. -/
def specClaimFilterGrowth : Prop :=
  (∀ (sqf : SchemaQueryFilterer) (s : String),
      (sqf.FilterToResourceType s).currentEstimatedSize = sqf.currentEstimatedSize + s.length ∧
      (sqf.FilterToResourceType s).tracerAttributes.length = sqf.tracerAttributes.length + 1)
  ∧ (∀ (sqf : SchemaQueryFilterer) (s : String),
      (sqf.FilterToResourceID s).currentEstimatedSize = sqf.currentEstimatedSize + s.length ∧
      (sqf.FilterToResourceID s).tracerAttributes.length = sqf.tracerAttributes.length + 1)
  ∧ (∀ (sqf : SchemaQueryFilterer) (s : String),
      (sqf.FilterToRelation s).currentEstimatedSize = sqf.currentEstimatedSize + s.length ∧
      (sqf.FilterToRelation s).tracerAttributes.length = sqf.tracerAttributes.length + 1)
  ∧ (∀ (sqf : SchemaQueryFilterer) (f : SubjectFilter),
      (sqf.FilterToSubjectFilter f).currentEstimatedSize
        = sqf.currentEstimatedSize + subjectFilterOperandSize f ∧
      (sqf.FilterToSubjectFilter f).tracerAttributes.length = sqf.tracerAttributes.length + 1)
  ∧ (∀ (sqf sqf2 : SchemaQueryFilterer) (us : List ObjectAndRelation),
      sqf.FilterToUsersets us = some sqf2 →
      sqf2.currentEstimatedSize = sqf.currentEstimatedSize + partMembersSize us ∧
      sqf2.tracerAttributes.length = sqf.tracerAttributes.length + 1)

/-- Counterexample for C7: FilterToUsersets grows the estimated size by the
operand bytes but adds no tracing attribute at all, so the attribute list
does not grow by one pair. -/
theorem claim_C7_counterexample : ¬ specClaimFilterGrowth := by
  intro h
  have hx := filterToUsersets_eq baseFilterer [uA] (by decide)
  have h5 := (h.2.2.2.2 baseFilterer _ [uA] hx).2
  simp [baseFilterer, NewSchemaQueryFilterer] at h5

/-- C7 (amended): the resource-type, resource-id and relation filters each
grow the estimated size by the operand's byte length and the attribute list
by exactly one pair; the subject filter grows the size by the bytes of the
subject type, subject id and (when present) normalized relation, and the
attribute list by one pair per equality added (one, two or three); the
usersets filter grows the size by the sum of the references' sizes and
leaves the attribute list unchanged. -/
theorem claim_C7_filter_growth :
    (∀ (sqf : SchemaQueryFilterer) (s : String),
        (sqf.FilterToResourceType s).currentEstimatedSize = sqf.currentEstimatedSize + s.length ∧
        (sqf.FilterToResourceType s).tracerAttributes.length = sqf.tracerAttributes.length + 1)
    ∧ (∀ (sqf : SchemaQueryFilterer) (s : String),
        (sqf.FilterToResourceID s).currentEstimatedSize = sqf.currentEstimatedSize + s.length ∧
        (sqf.FilterToResourceID s).tracerAttributes.length = sqf.tracerAttributes.length + 1)
    ∧ (∀ (sqf : SchemaQueryFilterer) (s : String),
        (sqf.FilterToRelation s).currentEstimatedSize = sqf.currentEstimatedSize + s.length ∧
        (sqf.FilterToRelation s).tracerAttributes.length = sqf.tracerAttributes.length + 1)
    ∧ (∀ (sqf : SchemaQueryFilterer) (f : SubjectFilter),
        (sqf.FilterToSubjectFilter f).currentEstimatedSize
          = sqf.currentEstimatedSize + subjectFilterOperandSize f ∧
        (sqf.FilterToSubjectFilter f).tracerAttributes.length
          = sqf.tracerAttributes.length + 1
            + (if f.OptionalSubjectId = "" then 0 else 1)
            + (match f.OptionalRelation with | none => 0 | some _ => 1))
    ∧ (∀ (sqf : SchemaQueryFilterer) (us : List ObjectAndRelation), us ≠ [] →
        ∃ sqf2, sqf.FilterToUsersets us = some sqf2 ∧
          sqf2.currentEstimatedSize = sqf.currentEstimatedSize + partMembersSize us ∧
          sqf2.tracerAttributes = sqf.tracerAttributes) := by
  refine ⟨?_, ?_, ?_, ?_, ?_⟩
  · intro sqf s
    constructor <;> simp [SchemaQueryFilterer.FilterToResourceType]
  · intro sqf s
    constructor <;> simp [SchemaQueryFilterer.FilterToResourceID]
  · intro sqf s
    constructor <;> simp [SchemaQueryFilterer.FilterToRelation]
  · intro sqf f
    rcases f with ⟨st, sid, rel⟩
    by_cases hid : sid = "" <;> cases rel <;>
      constructor <;>
        simp [SchemaQueryFilterer.FilterToSubjectFilter, subjectFilterOperandSize, hid] <;>
        omega
  · intro sqf us h
    refine ⟨_, filterToUsersets_eq sqf us h, by simp, by simp⟩

/-- Witness for the amended C7: the usersets conjunct applied at a concrete
non-empty list. -/
theorem claim_C7_witness :
    ([uB] : List ObjectAndRelation) ≠ [] ∧
      (∃ sqf2, baseFilterer.FilterToUsersets [uB] = some sqf2 ∧
        sqf2.currentEstimatedSize = baseFilterer.currentEstimatedSize + partMembersSize [uB] ∧
        sqf2.tracerAttributes = baseFilterer.tracerAttributes) :=
  ⟨by decide, claim_C7_filter_growth.2.2.2.2 baseFilterer [uB] (by decide)⟩

/-- C8: FilterToSubjectFilter always adds the subject-type equality, adds the
subject-id equality exactly when the id is non-empty, and adds the
subject-relation equality exactly when the optional relation is present, the
empty relation string normalized to the sentinel; the sentinel is "...". -/
theorem claim_C8_subject_filter :
    (∀ (sqf : SchemaQueryFilterer) (f : SubjectFilter),
      (sqf.FilterToSubjectFilter f).queryBuilder.whereParts =
        sqf.queryBuilder.whereParts
          ++ [Sqlizer.eqConj [(sqf.schema.ColUsersetNamespace, f.SubjectType)]]
          ++ (if f.OptionalSubjectId = "" then []
              else [Sqlizer.eqConj [(sqf.schema.ColUsersetObjectID, f.OptionalSubjectId)]])
          ++ (match f.OptionalRelation with
              | none => []
              | some rel => [Sqlizer.eqConj
                  [(sqf.schema.ColUsersetRelation, defaultEmpty rel.Relation Ellipsis)]]))
    ∧ defaultEmpty "" Ellipsis = "..." := by
  constructor
  · intro sqf f
    rcases f with ⟨st, sid, rel⟩
    by_cases hid : sid = "" <;> cases rel <;>
      simp [SchemaQueryFilterer.FilterToSubjectFilter, SelectBuilder.Where, hid]
  · rfl

/-- A splitter with no limit, no usersets and no hook, for witnesses. -/
def ctqPlain : TupleQuerySplitter := ⟨false, 100, baseFilterer, none, []⟩

/-- A backend behaviour failing SQL rendering. -/
def failingBehavior : PartitionBehavior := ⟨some "boom", none, none, none, [], none⟩

def failingDb : Nat → PartitionBehavior := fun _ => failingBehavior

/-- The tuples accumulated at the start of iteration j of the execution
loop: the starting tuples followed by each earlier partition's found
tuples in order. -/
def collected (tuples : List RelationTuple) (founds : Nat → List RelationTuple) : Nat → List RelationTuple
  | 0 => tuples
  | j + 1 => collected tuples founds j ++ founds j

lemma collected_shift (tuples : List RelationTuple) (founds : Nat → List RelationTuple) :
    ∀ j, collected (tuples ++ founds 0) (fun i => founds (i + 1)) j
      = collected tuples founds (j + 1) := by
  intro j
  induction j with
  | zero => rfl
  | succ j2 ih => simp only [collected, ih]

lemma execLoop_error_at_limited (ctq : TupleQuerySplitter) (db : Nat → PartitionBehavior)
    (L : Nat) (e : String) (hL : ctq.Limit = some L) :
    ∀ (k : Nat) (queries : List SchemaQueryFilterer) (idx : Nat) (tuples : List RelationTuple)
      (founds : Nat → List RelationTuple) (qk : SchemaQueryFilterer),
      (∀ j qj, j < k → queries[j]? = some qj →
        usub64 L (collected tuples founds j).length ≠ 0 ∧
        executeSingleQuery ctq (qj.Limit (usub64 L (collected tuples founds j).length))
          (usub64 L (collected tuples founds j).length) (db (idx + j))
          = Except.ok (founds j)) →
      queries[k]? = some qk →
      usub64 L (collected tuples founds k).length ≠ 0 →
      executeSingleQuery ctq (qk.Limit (usub64 L (collected tuples founds k).length))
        (usub64 L (collected tuples founds k).length) (db (idx + k)) = Except.error e →
      execLoop ctq db idx tuples queries = Except.error e := by
  intro k
  induction k with
  | zero =>
    intro queries idx tuples founds qk hok hk hnz herr
    cases queries with
    | nil => simp at hk
    | cons q rest =>
      simp only [List.getElem?_cons_zero, Option.some.injEq] at hk
      subst hk
      have hnz2 : usub64 L tuples.length ≠ 0 := hnz
      have herr2 : executeSingleQuery ctq (q.Limit (usub64 L tuples.length))
          (usub64 L tuples.length) (db idx) = Except.error e := by
        have := herr
        rw [Nat.add_zero] at this
        exact this
      simp only [execLoop, hL]
      rw [if_neg hnz2, herr2]
  | succ k2 ih =>
    intro queries idx tuples founds qk hok hk hnz herr
    cases queries with
    | nil => simp at hk
    | cons q rest =>
      obtain ⟨hnz0, hts0⟩ := hok 0 q (Nat.succ_pos k2) (by simp)
      have hnz0b : usub64 L tuples.length ≠ 0 := hnz0
      have hts0b : executeSingleQuery ctq (q.Limit (usub64 L tuples.length))
          (usub64 L tuples.length) (db idx) = Except.ok (founds 0) := by
        have := hts0
        rw [Nat.add_zero] at this
        exact this
      simp only [execLoop, hL]
      rw [if_neg hnz0b, hts0b]
      refine ih rest (idx + 1) (tuples ++ founds 0) (fun i => founds (i + 1)) qk
        ?_ (by simpa using hk) ?_ ?_
      · intro j qj hj hqj
        rw [collected_shift tuples founds j,
          show idx + 1 + j = idx + (j + 1) by omega]
        exact hok (j + 1) qj (Nat.succ_lt_succ hj) (by simpa using hqj)
      · rw [collected_shift tuples founds k2]
        exact hnz
      · rw [collected_shift tuples founds k2,
          show idx + 1 + k2 = idx + (k2 + 1) by omega]
        exact herr

/-- C3: every error executeSingleQuery produces wraps an underlying cause
with the uniform "unable to query tuples" prefix; and whenever the loop
reaches a partition whose execution fails (all earlier reached partitions
having succeeded), SplitAndExecute returns exactly that single wrapped
error, carrying no tuples, discarding whatever earlier partitions produced:
there is no partial-result return path. Stated once for the no-global-limit
configuration, in which every partition is reached, and once for the
global-limit configuration, in which a partition is reached while the
remaining uint64 cap is non-zero. -/
theorem claim_C3_atomic_failure :
    (∀ (ctq : TupleQuerySplitter) (q : SchemaQueryFilterer) (lim : Nat)
        (b : PartitionBehavior) (e : String),
        executeSingleQuery ctq q lim b = Except.error e → ∃ c, e = wrapErr c)
    ∧ (∀ (ctq : TupleQuerySplitter) (db : Nat → PartitionBehavior)
        (queries : List SchemaQueryFilterer) (k : Nat) (qk : SchemaQueryFilterer) (e : String),
        ctq.Limit = none →
        computeQueries ctq = some queries →
        (∀ j qj, j < k → queries[j]? = some qj →
          ∃ ts, executeSingleQuery ctq qj 0 (db j) = Except.ok ts) →
        queries[k]? = some qk →
        executeSingleQuery ctq qk 0 (db k) = Except.error e →
        SplitAndExecute ctq db = some (Except.error e))
    ∧ (∀ (ctq : TupleQuerySplitter) (db : Nat → PartitionBehavior)
        (queries : List SchemaQueryFilterer) (k : Nat) (qk : SchemaQueryFilterer)
        (e : String) (L : Nat) (founds : Nat → List RelationTuple),
        ctq.Limit = some L →
        computeQueries ctq = some queries →
        (∀ j qj, j < k → queries[j]? = some qj →
          usub64 L (collected [] founds j).length ≠ 0 ∧
          executeSingleQuery ctq (qj.Limit (usub64 L (collected [] founds j).length))
            (usub64 L (collected [] founds j).length) (db j) = Except.ok (founds j)) →
        queries[k]? = some qk →
        usub64 L (collected [] founds k).length ≠ 0 →
        executeSingleQuery ctq (qk.Limit (usub64 L (collected [] founds k).length))
          (usub64 L (collected [] founds k).length) (db k) = Except.error e →
        SplitAndExecute ctq db = some (Except.error e)) := by
  refine ⟨?_, ?_, ?_⟩
  · exact fun ctq q lim b e h => executeSingleQuery_error_wrapped ctq q lim b e h
  · intro ctq db queries k qk e hnone hcq hok hk herr
    rw [SplitAndExecute, hcq]
    have hloop := execLoop_error_at ctq db e hnone k queries 0 [] qk
      (fun j qj hj hqj => by rw [Nat.zero_add]; exact hok j qj hj hqj)
      hk
      (by rw [Nat.zero_add]; exact herr)
    simp [hloop]
  · intro ctq db queries k qk e L founds hL hcq hok hk hnz herr
    rw [SplitAndExecute, hcq]
    have hloop := execLoop_error_at_limited ctq db L e hL k queries 0 [] founds qk
      (fun j qj hj hqj => by rw [Nat.zero_add]; exact hok j qj hj hqj)
      hk
      hnz
      (by rw [Nat.zero_add]; exact herr)
    simp [hloop]

/-- A splitter with global limit 5 whose two usersets of size 15 split, at
threshold 20, into two singleton partitions. -/
def ctqTwoParts : TupleQuerySplitter := ⟨false, 20, baseFilterer, some 5, [wideA, wideB]⟩

/-- The first partition's query of ctqTwoParts. -/
def qW1 : SchemaQueryFilterer := (baseFilterer.FilterToUsersets [wideA]).getD baseFilterer

/-- The second partition's query of ctqTwoParts. -/
def qW2 : SchemaQueryFilterer := (baseFilterer.FilterToUsersets [wideB]).getD baseFilterer

/-- A backend serving one row for the first partition and failing SQL
rendering for every later one. -/
def mixedDb : Nat → PartitionBehavior :=
  fun k => if k = 0 then cleanBehavior [sampleTuple] else failingBehavior

def oneFound : Nat → List RelationTuple := fun _ => [sampleTuple]

/-- Witness for C3: a single-partition call with no limit whose SQL
rendering fails yields the single wrapped error; and under global limit 5, a
two-partition call whose first partition succeeds with one tuple and whose
second fails also yields the single wrapped error and no tuples. -/
theorem claim_C3_witness :
    ctqPlain.Limit = none ∧
    computeQueries ctqPlain = some [baseFilterer] ∧
    executeSingleQuery ctqPlain baseFilterer 0 (failingDb 0) = Except.error (wrapErr "boom") ∧
    SplitAndExecute ctqPlain failingDb = some (Except.error (wrapErr "boom")) ∧
    ctqTwoParts.Limit = some 5 ∧
    computeQueries ctqTwoParts = some [qW1, qW2] ∧
    executeSingleQuery ctqTwoParts (qW1.Limit 5) 5 (mixedDb 0) = Except.ok [sampleTuple] ∧
    SplitAndExecute ctqTwoParts mixedDb = some (Except.error (wrapErr "boom")) :=
  ⟨rfl, rfl, rfl,
    claim_C3_atomic_failure.2.1 ctqPlain failingDb [baseFilterer] 0 baseFilterer (wrapErr "boom")
      rfl rfl (fun j qj hj _ => absurd hj (by omega)) rfl rfl,
    rfl, rfl, rfl,
    claim_C3_atomic_failure.2.2 ctqTwoParts mixedDb [qW1, qW2] 1 qW2 (wrapErr "boom") 5 oneFound
      rfl rfl
      (by
        intro j qj hj hqj
        have hj0 : j = 0 := by omega
        subst hj0
        simp only [List.getElem?_cons_zero, Option.some.injEq] at hqj
        subst hqj
        exact ⟨by decide, by rfl⟩)
      rfl (by decide) rfl⟩

/-- Claim C4 as stated: for every supplied global limit L, over a clean
backend the call returns exactly min L R tuples, R being the total number of
matching rows over all partitions. -/
def specClaimMinLimit : Prop :=
  ∀ (ctq : TupleQuerySplitter) (db : Nat → PartitionBehavior)
    (rowsOf : Nat → List RelationTuple) (L : Nat) (queries : List SchemaQueryFilterer),
    ctq.Limit = some L →
    computeQueries ctq = some queries →
    (∀ k, db k = cleanBehavior (rowsOf k)) →
    ∃ ts, SplitAndExecute ctq db = some (Except.ok ts) ∧
      ts.length = min L (sumRows rowsOf 0 queries.length)

/-- A splitter whose global limit is 2 to the 63, the smallest uint64 value
whose conversion to a 64-bit signed int is negative. -/
def ctqBigLimit : TupleQuerySplitter := ⟨false, 100, baseFilterer, some (2 ^ 63), []⟩

def oneRowOf : Nat → List RelationTuple := fun _ => [sampleTuple]

def oneRowDb : Nat → PartitionBehavior := fun k => cleanBehavior (oneRowOf k)

/-- Counterexample for C4: with L = 2 to the 63, the row cap int(limit) at
sql.go line 294 is negative, so the row loop returns before consuming any
row and the call yields 0 tuples although min L R = 1. -/
theorem claim_C4_counterexample : ¬ specClaimMinLimit := by
  intro h
  obtain ⟨ts, h1, h2⟩ := h ctqBigLimit oneRowDb oneRowOf (2 ^ 63) [baseFilterer]
    rfl rfl (fun _ => rfl)
  have h3 : SplitAndExecute ctqBigLimit oneRowDb = some (Except.ok ([] : List RelationTuple)) := by
    rfl
  rw [h3] at h1
  simp only [Option.some.injEq, Except.ok.injEq] at h1
  rw [← h1] at h2
  revert h2
  decide

/-- C4 (amended): for a supplied global limit L below 2 to the 63 (so that
the conversion of each per-partition cap to a 64-bit signed int stays
positive), over a clean backend holding R total matching rows the call
returns exactly min L R tuples; before each partition the remaining cap is
computed by uint64 subtraction and the loop stops as soon as it is zero. -/
theorem claim_C4_min_limit (ctq : TupleQuerySplitter) (db : Nat → PartitionBehavior)
    (rowsOf : Nat → List RelationTuple) (L : Nat) (queries : List SchemaQueryFilterer)
    (hL : ctq.Limit = some L) (hL63 : L < 2 ^ 63)
    (hcq : computeQueries ctq = some queries)
    (hdb : ∀ k, db k = cleanBehavior (rowsOf k)) :
    ∃ ts, SplitAndExecute ctq db = some (Except.ok ts) ∧
      ts.length = min L (sumRows rowsOf 0 queries.length) := by
  obtain ⟨ts, hts, hlen⟩ := execLoop_clean ctq db rowsOf L hL hL63 hdb queries 0 [] (by simp)
  refine ⟨ts, ?_, by simpa using hlen⟩
  rw [SplitAndExecute, hcq]
  simp [hts]

/-- A splitter with global limit 2. -/
def ctqSmallLimit : TupleQuerySplitter := ⟨false, 100, baseFilterer, some 2, []⟩

def threeRowsOf : Nat → List RelationTuple := fun _ => [sampleTuple, sampleTuple, sampleTuple]

def threeRowsDb : Nat → PartitionBehavior := fun k => cleanBehavior (threeRowsOf k)

/-- Witness for the amended C4: limit 2 over a single partition holding 3
rows returns exactly min 2 3 = 2 tuples. -/
theorem claim_C4_witness :
    ctqSmallLimit.Limit = some 2 ∧ 2 < 2 ^ 63 ∧
    computeQueries ctqSmallLimit = some [baseFilterer] ∧
      ∃ ts, SplitAndExecute ctqSmallLimit threeRowsDb = some (Except.ok ts) ∧
        ts.length = min 2 (sumRows threeRowsOf 0 [baseFilterer].length) :=
  ⟨rfl, by decide, rfl,
    claim_C4_min_limit ctqSmallLimit threeRowsDb threeRowsOf 2 [baseFilterer]
      rfl (by decide) rfl (fun _ => rfl)⟩

/-- C10: each partition returns at most its assigned cap, and when a global
limit L (a uint64, hence below 2 to the 64) is set, the accumulated tuple
count stays at or below L at every iteration of the execution loop, so the
uint64 subtraction computing the remaining cap never wraps modulo 2 to the
64 and the loop ends with at most L tuples. -/
theorem claim_C10_limit_invariant :
    (∀ (ctq : TupleQuerySplitter) (q : SchemaQueryFilterer) (n : Nat)
        (b : PartitionBehavior) (ts : List RelationTuple),
        executeSingleQuery ctq (q.Limit n) n b = Except.ok ts → ts.length ≤ n)
    ∧ (∀ (ctq : TupleQuerySplitter) (db : Nat → PartitionBehavior) (L : Nat),
        ctq.Limit = some L → L < 2 ^ 64 →
        ∀ (queries : List SchemaQueryFilterer) (idx : Nat) (tuples : List RelationTuple),
          tuples.length ≤ L →
          usub64 L tuples.length = L - tuples.length ∧
          ∀ ts, execLoop ctq db idx tuples queries = Except.ok ts → ts.length ≤ L) := by
  constructor
  · exact fun ctq q n b ts h => executeSingleQuery_length ctq q n b ts h
  · intro ctq db L hL hL64 queries idx tuples hlen
    exact ⟨usub64_no_wrap L tuples.length hlen hL64,
      fun ts h => execLoop_le ctq db L hL hL64 queries idx tuples hlen ts h⟩

/-- Witness for C10: a partition capped at 1 over 3 available rows returns
at most 1 tuple, the uint64 subtraction at the concrete state is exact, and
the concrete loop run ends with at most 2 tuples. -/
theorem claim_C10_witness :
    ([sampleTuple] : List RelationTuple).length ≤ 1 ∧
    usub64 2 (List.length ([] : List RelationTuple)) = 2 - List.length ([] : List RelationTuple) ∧
    ([sampleTuple] : List RelationTuple).length ≤ 2 :=
  ⟨claim_C10_limit_invariant.1 ctqSmallLimit baseFilterer 1 (cleanBehavior [sampleTuple, sampleTuple, sampleTuple]) [sampleTuple] (by rfl),
    (claim_C10_limit_invariant.2 ctqSmallLimit oneRowDb 2 rfl (by decide) [baseFilterer] 0 [] (by decide)).1,
    (claim_C10_limit_invariant.2 ctqSmallLimit oneRowDb 2 rfl (by decide) [baseFilterer] 0 [] (by decide)).2 [sampleTuple] (by rfl)⟩
